import Mathlib

/-!
Verification of the glacier_backup repository against its specification.

The Python sources are shallowly embedded: the sqlite ledger (`db.py`) becomes a
list of rows in insertion order, the uploader's tree hash and part bookkeeping
(`uploader.py`) become pure functions over lists (SHA-256 is an uninterpreted
function on byte strings, bytes are `List Nat`), and the candidate scanner and
runner loop (`backup.py`) become functions over an explicit filesystem model.
-/

namespace GlacierBackup

/-- One row of the `uploads` table: `(path, name, archive_id, uploaded_date)`.
The table is append-only; a `List Record` holds the rows in insertion order,
which is the order a bare `SELECT` (no ORDER BY) returns them in sqlite. -/
structure Record where
  path : String
  name : String
  archiveId : String
  date : Nat
deriving DecidableEq

/-- The rows matching a path, in insertion order, projected to `uploaded_date` —
the `fetchall()` of `SELECT uploaded_date FROM uploads WHERE path = ?`. -/
def matching_dates (db : List Record) (filename : String) : List Nat :=
  (db.filter (fun r => r.path == filename)).map Record.date

/-- `GlacierDB.get_uploaded_date`: runs the SELECT above and returns
`all[-1][0] if all else ''` — the last fetched row's date, `none` for the
empty-string sentinel when no row matches. -/
def get_uploaded_date (db : List Record) (filename : String) : Option Nat :=
  (matching_dates db filename).getLast?

/-- Modelled from the spec's words for comparison with `get_uploaded_date`:
"the maximum `uploadedAtEpochSeconds` among records matching `path`, or absent
if none exist". -/
def maxDate : List Nat → Option Nat
  | [] => none
  | d :: rest => some (rest.foldl Nat.max d)

/-- Boolean test that a list of dates is nondecreasing (timestamp order agrees
with insertion order). -/
def nondecreasing : List Nat → Bool
  | [] => true
  | [_] => true
  | a :: b :: rest => Nat.ble a b && nondecreasing (b :: rest)

theorem getLast?_eq_maxDate : ∀ l : List Nat, nondecreasing l = true → l.getLast? = maxDate l
  | [], _ => rfl
  | [_], _ => rfl
  | a :: b :: rest, h => by
    have hab : Nat.ble a b = true ∧ nondecreasing (b :: rest) = true := by
      simpa [nondecreasing, Bool.and_eq_true] using h
    have hle : a ≤ b := Nat.le_of_ble_eq_true hab.1
    have ih := getLast?_eq_maxDate (b :: rest) hab.2
    have h1 : (a :: b :: rest).getLast? = (b :: rest).getLast? := by
      simp [List.getLast?_cons_cons]
    rw [h1, ih]
    show maxDate (b :: rest) = maxDate (a :: b :: rest)
    simp only [maxDate, List.foldl_cons]
    have h2 : a.max b = b := Nat.max_eq_right hle
    rw [h2]

/-- A ledger whose two rows for path `p` were inserted with the larger
timestamp first. -/
def exdb1 : List Record := [⟨"p", "n1", "a1", 10⟩, ⟨"p", "n2", "a2", 5⟩]

/-- C1 counterexample: with rows for `"p"` inserted as timestamps `[10, 5]`,
`get_uploaded_date` returns `5` (the last inserted row) while the maximum
matching timestamp is `10`, so the claim "returns the maximum" is false. -/
theorem getLastUploaded_not_max_counterexample :
    get_uploaded_date exdb1 "p" = some 5 ∧
    maxDate (matching_dates exdb1 "p") = some 10 := by
  constructor <;> rfl

/-- C1 (corrected): `get_uploaded_date` returns the timestamp of the most
recently inserted matching row, not the maximum in general; in particular,
whenever the matching timestamps are nondecreasing in insertion order — the
case for sequential runs — the returned value is the maximum matching
timestamp. -/
theorem getLastUploaded_monotone_eq_max (db : List Record) (p : String)
    (h : nondecreasing (matching_dates db p) = true) :
    get_uploaded_date db p = maxDate (matching_dates db p) :=
  getLast?_eq_maxDate (matching_dates db p) h

/-- Witness for C1's amended theorem at a concrete two-row ledger. -/
theorem getLastUploaded_monotone_eq_max_witness :
    nondecreasing (matching_dates [⟨"p", "n1", "a1", 5⟩, ⟨"p", "n2", "a2", 10⟩] "p") = true ∧
    get_uploaded_date [⟨"p", "n1", "a1", 5⟩, ⟨"p", "n2", "a2", 10⟩] "p" =
      maxDate (matching_dates [⟨"p", "n1", "a1", 5⟩, ⟨"p", "n2", "a2", 10⟩] "p") :=
  ⟨by decide, getLastUploaded_monotone_eq_max _ "p" (by decide)⟩

/-- An sqlite error raised by `conn.execute`. -/
inductive SqlError
  | noSuchTable
  | syntaxError
deriving DecidableEq

/-- The state of one database file: whether the `uploads` table exists in it,
and its rows. -/
structure DBState where
  tableExists : Bool
  rows : List Record
deriving DecidableEq

/-- `GlacierDB.__init__`: `sqlite3.connect(backupdb)` creates the database file
when it is absent, so the `not os.path.exists(backupdb)` test that follows is
always false and the `CREATE TABLE` statement is never executed. (Were the
branch ever taken, it would raise anyway: the CREATE TABLE SQL text in the
source lacks its closing parenthesis.) `preExisting` is the state of a database
file already on disk, `none` when no file exists yet at the path. -/
def glacierDB_init (preExisting : Option DBState) : Except SqlError DBState :=
  let st := preExisting.getD ⟨false, []⟩
  let fileExistsAfterConnect := true
  if fileExistsAfterConnect then .ok st
  else .error .syntaxError

/-- `GlacierDB.get_uploaded_date` as executed against a database file: the
SELECT raises `no such table` when the `uploads` table does not exist. -/
def get_uploaded_date_db (st : DBState) (filename : String) : Except SqlError (Option Nat) :=
  if st.tableExists then .ok (get_uploaded_date st.rows filename) else .error .noSuchTable

/-- `GlacierDB.mark_uploaded` as executed against a database file: the INSERT
raises `no such table` when the `uploads` table does not exist; otherwise it
appends one row. -/
def mark_uploaded (st : DBState) (filename uploaded_as archiveid : String) (date : Nat) :
    Except SqlError DBState :=
  if st.tableExists then .ok ⟨st.tableExists, st.rows ++ [⟨filename, uploaded_as, archiveid, date⟩]⟩
  else .error .noSuchTable

/-- C5 (code bug): opening the ledger at a path with no database file yields a
database without the `uploads` table (the existence check runs only after
`connect` has already created the file), so both subsequent operations raise a
storage error instead of succeeding. -/
theorem fresh_ledger_operations_fail :
    glacierDB_init none = .ok ⟨false, []⟩ ∧
    get_uploaded_date_db ⟨false, []⟩ "p" = .error .noSuchTable ∧
    mark_uploaded ⟨false, []⟩ "p" "n" "a" 1 = .error .noSuchTable :=
  ⟨rfl, rfl, rfl⟩

/-- `Backup.needs_upload`. `mtime` gives a path's last-modified epoch
(`file.stat().st_mtime`). Python's `if not uploaded_date:` is true both for the
empty-string sentinel (no row) and for the integer `0`, so a stored date of `0`
is treated like a missing record. -/
def needs_upload (db : List Record) (mtime : String → Nat) (p : String)
    (upload_if_changed : Bool) : Bool :=
  match get_uploaded_date db p with
  | none => true
  | some 0 => true
  | some d => upload_if_changed && decide (mtime p > d)

/-- A ledger holding one row for `"p"` with `uploaded_date = 0`. -/
def exdb8 : List Record := [⟨"p", "n", "a", 0⟩]

/-- C8 (code bug): with a matching ledger row whose timestamp is `0` and
`ifChanged = false`, `needs_upload` returns `true`, though the claim (and the
repository's own test `test_needs_upload_false`, which marks the path uploaded
with date `0`) requires `false` whenever a record exists and `ifChanged` is
false. -/
theorem needs_upload_zero_date_bug :
    get_uploaded_date exdb8 "p" = some 0 ∧
    needs_upload exdb8 (fun _ => 100) "p" false = true :=
  ⟨rfl, rfl⟩

/-- One `os.scandir` entry: its (base) name and whether it is a directory;
`entry.is_file()` is modelled as the negation of `entry.is_dir()`. -/
structure DirEntry where
  name : String
  isDir : Bool
deriving DecidableEq

/-- What the target path is on disk: a regular file, a directory with its
immediate children, or nonexistent. -/
inductive FSNode
  | file
  | dir (entries : List DirEntry)
  | missing
deriving DecidableEq

/-- The candidates one scandir entry contributes inside
`Backup.backup_candidates_by_path`: skip it when its name starts with the
`exclude` string (Python treats both `None` and the empty string as "no
exclusion"), then the directory check and the file check run in sequence. -/
def entry_yields (db : List Record) (mtime : String → Nat)
    (upload_files upload_dirs upload_if_changed : Bool) (exclude : Option String)
    (e : DirEntry) : List String :=
  if (match exclude with
      | some ex => !ex.isEmpty && ex.data.isPrefixOf e.name.data
      | none => false) then []
  else
    (if e.isDir && upload_dirs && needs_upload db mtime e.name upload_if_changed
     then [e.name] else []) ++
    (if !e.isDir && upload_files && needs_upload db mtime e.name upload_if_changed
     then [e.name] else [])

/-- `Backup.backup_candidates_by_path`: a file path is yielded immediately; a
missing path yields nothing; for a directory, if none of the three selection
flags is set nothing is yielded, `single_dir` yields the directory itself, and
otherwise each scandir entry contributes per `entry_yields`. -/
def backup_candidates_by_path (db : List Record) (mtime : String → Nat)
    (node : FSNode) (path : String)
    (single_dir upload_files upload_dirs upload_if_changed : Bool)
    (exclude : Option String) : List String :=
  match node with
  | .file => [path]
  | .missing => []
  | .dir entries =>
    if !(single_dir || upload_files || upload_dirs) then []
    else if single_dir then [path]
    else entries.foldr
      (fun e acc => entry_yields db mtime upload_files upload_dirs upload_if_changed exclude e ++ acc)
      []

/-- The directory of C7: exactly files `file1`, `file2` and directories
`dir1`, `dir2`, none recorded in the ledger (the ledger is empty). -/
def c7_entries : List DirEntry :=
  [⟨"file1", false⟩, ⟨"file2", false⟩, ⟨"dir1", true⟩, ⟨"dir2", true⟩]

/-- C7: the policy matrix over a directory with files `file1, file2` and
directories `dir1, dir2` and an empty ledger: files-only yields the files,
dirs-only the directories, both yields all four, `single_dir` overrides the
per-entry flags and yields only the directory path, and exclude string `dir`
removes the two directories. -/
theorem scanner_policy_matrix (mtime : String → Nat) :
    backup_candidates_by_path [] mtime (.dir c7_entries) "root" false true false false none
      = ["file1", "file2"] ∧
    backup_candidates_by_path [] mtime (.dir c7_entries) "root" false false true false none
      = ["dir1", "dir2"] ∧
    backup_candidates_by_path [] mtime (.dir c7_entries) "root" false true true false none
      = ["file1", "file2", "dir1", "dir2"] ∧
    backup_candidates_by_path [] mtime (.dir c7_entries) "root" true true true false none
      = ["root"] ∧
    backup_candidates_by_path [] mtime (.dir c7_entries) "root" false true true false (some "dir")
      = ["file1", "file2"] :=
  ⟨rfl, rfl, rfl, rfl, rfl⟩

/-- C10: a regular-file target is yielded as-is for every ledger, every mtime
assignment and every combination of policy flags, and a directory target with
`single_dir` set likewise yields exactly the directory path — neither consults
`needs_upload` or the ledger, so their yield is independent of both. -/
theorem direct_file_and_single_dir_skip_ledger (db : List Record)
    (mtime : String → Nat) (path : String) (sd uf ud uic : Bool)
    (ex : Option String) (entries : List DirEntry) :
    backup_candidates_by_path db mtime .file path sd uf ud uic ex = [path] ∧
    backup_candidates_by_path db mtime (.dir entries) path true uf ud uic ex = [path] := by
  refine ⟨rfl, ?_⟩
  simp [backup_candidates_by_path]

def MEGABYTE : Nat := 1024 * 1024

def DEFAULT_PART_SIZE : Nat := 4 * MEGABYTE

/-- One pass of the inner loop of `tree_hash`: digests (byte strings, `sha` is
the uninterpreted SHA-256) are popped two at a time left to right and combined
as `sha (first ++ second)`; a single remaining digest is carried forward
unchanged. -/
def pairUp (sha : List Nat → List Nat) : List (List Nat) → List (List Nat)
  | [] => []
  | [a] => [a]
  | a :: b :: rest => sha (a ++ b) :: pairUp sha rest

theorem pairUp_length (sha : List Nat → List Nat) :
    ∀ l : List (List Nat), (pairUp sha l).length = (l.length + 1) / 2
  | [] => by simp [pairUp]
  | [_] => by simp [pairUp]
  | _ :: _ :: rest => by
    simp only [pairUp, List.length_cons, pairUp_length sha rest]
    omega

/-- The outer `while len(hashes) > 1` loop of `tree_hash`: after the inner loop
drains `hashes` into `new_hashes`, `hashes.extend(new_hashes)` makes the paired
list the new working list. -/
def treeHashLoop (sha : List Nat → List Nat) (l : List (List Nat)) : List (List Nat) :=
  if 1 < l.length then treeHashLoop sha (pairUp sha l) else l
termination_by l.length
decreasing_by
  rw [pairUp_length]
  omega

/-- `tree_hash`: run the pairing loop to a single digest and return it
(`hashes[0]`; `none` models the IndexError on an empty input, which
`chunk_hashes` never produces). -/
def tree_hash (sha : List Nat → List Nat) (l : List (List Nat)) : Option (List Nat) :=
  (treeHashLoop sha l).head?

/-- `chunk_hashes`: the SHA-256 digest of each 1 MiB sub-chunk of the byte
string in order, or the single digest of the empty byte string when there are
no chunks. -/
def chunk_hashes (sha : List Nat → List Nat) (bytestring : List Nat) (chunk_size : Nat) :
    List (List Nat) :=
  let chunk_count := (bytestring.length + chunk_size - 1) / chunk_size
  let hashes := (List.range chunk_count).map
    (fun i => sha ((bytestring.drop (i * chunk_size)).take chunk_size))
  if hashes.isEmpty then [sha []] else hashes

/-- C6: the three fixed points of `tree_hash`, for every digest-combining
function `sha` (in particular SHA-256 of the concatenation): a singleton is
returned unchanged, a pair is combined once, and with three digests the
unpaired trailing digest is carried into the second pass. -/
theorem tree_hash_fixed_points (sha : List Nat → List Nat) (a b c d : List Nat) :
    tree_hash sha [d] = some d ∧
    tree_hash sha [a, b] = some (sha (a ++ b)) ∧
    tree_hash sha [a, b, c] = some (sha (sha (a ++ b) ++ c)) := by
  refine ⟨?_, ?_, ?_⟩ <;> simp [tree_hash, treeHashLoop, pairUp]

/-- `Uploader._upload_threads` part counting:
`total_parts = int((filesize / part_size) + 1)`, i.e. the floor of the true
quotient plus one (the float quotient is exact at every size considered here),
and offsets `0 .. total_parts - 1` are put on the work queue. -/
def total_parts (filesize part_size : Nat) : Nat :=
  filesize / part_size + 1

/-- The part offsets enqueued on the work queue: `range(total_parts)`. -/
def enqueued_parts (filesize part_size : Nat) : List Nat :=
  List.range (total_parts filesize part_size)

/-- C2 (code bug): for a 4 MiB file with the default 4 MiB part size the code
enqueues 2 part offsets, while `ceil(fileSize / partSize)` (with minimum 1) is
1 — the claimed "no extra empty part when partSize exactly divides fileSize"
fails. -/
theorem total_parts_exact_multiple_bug :
    (enqueued_parts DEFAULT_PART_SIZE DEFAULT_PART_SIZE).length = 2 ∧
    max 1 ((DEFAULT_PART_SIZE + DEFAULT_PART_SIZE - 1) / DEFAULT_PART_SIZE) = 1 := by
  constructor <;> rfl

/-- The result slot list built after the join barrier:
`res = [None] * total_parts`, then each `(part, hash_)` drained from the hash
queue is written at index `part`. -/
def assembleRes (total : Nat) (pairs : List (Nat × List Nat)) : List (Option (List Nat)) :=
  pairs.foldl (fun res p => res.set p.1 (some p.2)) (List.replicate total none)

/-- The tail of `Uploader._upload_threads` after a clean join: assemble the
slots, fail (`none`) when any slot is still `None`, otherwise tree-hash the
part checksums in offset order. -/
def upload_threads_result (sha : List Nat → List Nat) (total : Nat)
    (pairs : List (Nat × List Nat)) : Option (List Nat) :=
  let res := assembleRes total pairs
  if none ∈ res then none else tree_hash sha (res.filterMap id)

/-- The hash-queue contents produced by a sequential one-worker run: the worker
drains the offsets in queue order `0, 1, ...`, so the results arrive in
ascending offset order, `partHash` being the per-part checksum. -/
def seq_results (total : Nat) (partHash : Nat → List Nat) : List (Nat × List Nat) :=
  (List.range total).map (fun i => (i, partHash i))

/-- C9: the final archive checksum computed after the join barrier depends only
on the set of `(offset, checksum)` pairs, not on arrival order: any permutation
of the sequential one-worker result list yields the same final checksum. -/
theorem final_checksum_order_invariant (sha : List Nat → List Nat) (total : Nat)
    (partHash : Nat → List Nat) (pairs : List (Nat × List Nat))
    (h : pairs.Perm (seq_results total partHash)) :
    upload_threads_result sha total pairs =
      upload_threads_result sha total (seq_results total partHash) := by
  have hres : assembleRes total pairs = assembleRes total (seq_results total partHash) := by
    unfold assembleRes
    refine h.foldl_eq' ?_ _
    intro x hx y hy z
    by_cases hxy : x.1 = y.1
    · have hx' : x ∈ seq_results total partHash := h.subset hx
      have hy' : y ∈ seq_results total partHash := h.subset hy
      simp only [seq_results, List.mem_map] at hx' hy'
      obtain ⟨i, _, rfl⟩ := hx'
      obtain ⟨j, _, rfl⟩ := hy'
      obtain rfl : i = j := hxy
      rfl
    · exact List.set_comm _ _ _ hxy
  simp only [upload_threads_result, hres]

/-- Witness for C9 at three parts delivered in the order 2, 0, 1. -/
theorem final_checksum_order_invariant_witness :
    ([(2, [2]), (0, [0]), (1, [1])] : List (Nat × List Nat)).Perm
      (seq_results 3 (fun i => [i])) ∧
    upload_threads_result (fun l => l) 3 [(2, [2]), (0, [0]), (1, [1])] =
      upload_threads_result (fun l => l) 3 (seq_results 3 (fun i => [i])) :=
  ⟨by decide, final_checksum_order_invariant (fun l => l) 3 (fun i => [i]) _ (by decide)⟩

/-- One iteration of `UploaderThread.run` for the offset popped from the work
queue. `partResult offset` is the outcome of `readfile` followed by
`upload_part` (`none` when either raises). The returned pair is (the error
flag after the iteration, what was put on the hash queue): on any exception
the worker sets the shared flag, breaks, and enqueues nothing; on success it
enqueues `(offset, part_hash)` and leaves the flag untouched (false here,
starting from an unset flag). -/
def workerStep (partResult : Nat → Option (List Nat)) (offset : Nat) :
    Bool × Option (Nat × List Nat) :=
  match partResult offset with
  | none => (true, none)
  | some h => (false, some (offset, h))

/-- `Uploader._upload_threads` after the join barrier, including the check of
the shared error flag: a set flag raises `UploadFailedException` (`none`)
before any slot assembly. -/
def upload_threads (sha : List Nat → List Nat) (total : Nat) (errSet : Bool)
    (pairs : List (Nat × List Nat)) : Option (List Nat) :=
  if errSet then none else upload_threads_result sha total pairs

/-- How one `Uploader.upload` call ended. -/
inductive UploadOutcome
  | archive (id : String)
  | uploadFailed
  | clientError
deriving DecidableEq

/-- The externally visible effects of one `Uploader.upload` call. -/
structure UploadTrace where
  abortCalls : Nat
  completeCalled : Bool
  outcome : UploadOutcome
deriving DecidableEq

/-- `Uploader.upload` after `initiate_multipart_upload`: an exception from
`_upload_threads` is caught, `abort` is called once and `UploadFailedException`
propagates without `complete` being called; otherwise `complete` is called
(`completeResult` is the remote reply, `none` for a `ClientError`), and a
failing completion also aborts once before propagating. -/
def upload (sha : List Nat → List Nat) (total : Nat) (errSet : Bool)
    (pairs : List (Nat × List Nat)) (completeResult : List Nat → Option String) :
    UploadTrace :=
  match upload_threads sha total errSet pairs with
  | none => ⟨1, false, .uploadFailed⟩
  | some ck =>
    match completeResult ck with
    | none => ⟨1, true, .clientError⟩
    | some aid => ⟨0, true, .archive aid⟩

/-- The ledger after `Backup.backup_file`'s upload step: `mark_uploaded` runs
only when `self.uploader.upload` returned an archive id; when it raised, the
exception propagates and the ledger is left unchanged. -/
def backup_file_ledger (tr : UploadTrace) (db : List Record) (path name : String)
    (date : Nat) : List Record :=
  match tr.outcome with
  | .archive aid => db ++ [⟨path, name, aid, date⟩]
  | _ => db

/-- C3: when some part `k` fails, the worker that processed it sets the shared
error flag and enqueues no result; with the flag set at the join barrier the
job aborts the session exactly once, never calls `complete`, ends in
`UploadFailedException`, and writes no ledger record, whatever the other
workers managed to enqueue. -/
theorem part_failure_aborts_once_no_ledger
    (partResult : Nat → Option (List Nat)) (k : Nat) (hk : partResult k = none)
    (sha : List Nat → List Nat) (total : Nat) (pairs : List (Nat × List Nat))
    (completeResult : List Nat → Option String) (db : List Record)
    (path name : String) (date : Nat) :
    workerStep partResult k = (true, none) ∧
    upload sha total true pairs completeResult = ⟨1, false, .uploadFailed⟩ ∧
    backup_file_ledger (upload sha total true pairs completeResult) db path name date = db := by
  refine ⟨?_, rfl, rfl⟩
  simp [workerStep, hk]

/-- Witness for C3 at a concrete failing part. -/
theorem part_failure_aborts_once_no_ledger_witness :
    ((fun _ => (none : Option (List Nat))) 0 = none) ∧
    (workerStep (fun _ => none) 0 = (true, none) ∧
      upload (fun l => l) 2 true [] (fun _ => some "aid") = ⟨1, false, .uploadFailed⟩ ∧
      backup_file_ledger (upload (fun l => l) 2 true [] (fun _ => some "aid"))
        [] "p" "n" 7 = []) :=
  ⟨rfl, part_failure_aborts_once_no_ledger (fun _ => none) 0 rfl (fun l => l) 2 []
    (fun _ => some "aid") [] "p" "n" 7⟩

/-- How `Backup.backup_file` ended for one candidate, as seen by `Backup.run`:
success, `UploadFailedException`, a remote `ClientError`, or the
`CalledProcessError` re-raised when staging the directory to a tar file
failed. -/
inductive CandidateOutcome
  | ok
  | uploadFailed
  | clientError
  | stagingFailed
deriving DecidableEq

/-- `Backup.run`'s candidate loop, given each candidate's outcome in order.
Returns (how many candidates were attempted, whether an exception escaped the
loop). The `except` clause names only `UploadFailedException` and
`ClientError`, so those log and continue; a staging failure is not named and
escapes, ending the run. With `stop_on_first` the loop returns after the first
success. -/
def runLoop (stopOnFirst : Bool) : List CandidateOutcome → Nat × Bool
  | [] => (0, false)
  | o :: rest =>
    match o with
    | .ok =>
      if stopOnFirst then (1, false)
      else ((runLoop stopOnFirst rest).1 + 1, (runLoop stopOnFirst rest).2)
    | .uploadFailed => ((runLoop stopOnFirst rest).1 + 1, (runLoop stopOnFirst rest).2)
    | .clientError => ((runLoop stopOnFirst rest).1 + 1, (runLoop stopOnFirst rest).2)
    | .stagingFailed => (1, true)

/-- C4 counterexample: a staging failure on the first of two candidates ends
the run — only one candidate is attempted and the exception escapes the loop,
so the runner does not "continue to the next candidate" for `StagingFailed`. -/
theorem runLoop_staging_terminates_counterexample :
    runLoop false [.stagingFailed, .ok] = (1, true) := by decide

/-- C4 (corrected): a failure confined to one candidate is contained at the
runner loop for `UploadFailed` and remote-service (`ClientError`) errors — the
loop moves on to the remaining candidates — and a run whose per-candidate
failures are all of those two kinds never has an exception escape; a
`StagingFailed` candidate, by contrast, is the one per-candidate failure that
terminates the run. -/
theorem runLoop_contains_upload_errors (stopOnFirst : Bool)
    (rest l : List CandidateOutcome) (h : .stagingFailed ∉ l) :
    runLoop stopOnFirst (.uploadFailed :: rest)
      = ((runLoop stopOnFirst rest).1 + 1, (runLoop stopOnFirst rest).2) ∧
    runLoop stopOnFirst (.clientError :: rest)
      = ((runLoop stopOnFirst rest).1 + 1, (runLoop stopOnFirst rest).2) ∧
    (runLoop stopOnFirst l).2 = false := by
  refine ⟨rfl, rfl, ?_⟩
  induction l with
  | nil => rfl
  | cons o t ih =>
    have ho : o ≠ .stagingFailed := fun he => h (he ▸ List.mem_cons_self o t)
    have ht : CandidateOutcome.stagingFailed ∉ t := fun hm => h (List.mem_cons_of_mem o hm)
    cases o with
    | ok =>
      cases stopOnFirst <;> simp [runLoop, ih ht]
    | uploadFailed => simp [runLoop, ih ht]
    | clientError => simp [runLoop, ih ht]
    | stagingFailed => exact absurd rfl ho

/-- Witness for C4's amended theorem on a concrete staging-free run. -/
theorem runLoop_contains_upload_errors_witness :
    (CandidateOutcome.stagingFailed ∉ ([.uploadFailed, .clientError, .ok] : List CandidateOutcome)) ∧
    (runLoop false [.uploadFailed]
      = ((runLoop false []).1 + 1, (runLoop false []).2) ∧
    runLoop false [.clientError]
      = ((runLoop false []).1 + 1, (runLoop false []).2) ∧
    (runLoop false [.uploadFailed, .clientError, .ok]).2 = false) :=
  ⟨by decide, runLoop_contains_upload_errors false [] [.uploadFailed, .clientError, .ok] (by decide)⟩

end GlacierBackup
